import Mathlib

set_option maxHeartbeats 1000000

/-! Shallow embedding of `src/main.py` (seismic-mpp): a two-device
maintenance / earthquake discrete-event Monte-Carlo simulation.

Simulation times and random variates are modelled as rationals.  The shared
numpy random stream is modelled as an oracle `ω : ℚ → ℕ → ℚ`, where
`ω a k` is the value returned by the `k`-th call to `np.random.weibull`
in program order when that call is made with shape argument `a`; the stream
position `k` is threaded explicitly through every definition, exactly one
position per `np.random.weibull` call in the Python source.  -/

/-- The `Device` namedtuple of `main.py` line 38: identity, Weibull failure-law
parameters, absolute time of the next scheduled maintenance, absolute end of
the current maintenance window (`0` when not set), and the failure flag. -/
structure Device where
  name : String
  shape : ℚ
  scale : ℚ
  next_maintenance : ℚ
  end_maintenance : ℚ
  failed : Bool
deriving DecidableEq

/-- Earthquake parameter `q_slope = 0.7` (`main.py` line 41). -/
def q_slope : ℚ := 7/10

/-- Earthquake parameter `q_scale = 200` (`main.py` line 42). -/
def q_scale : ℚ := 200

/-- The mutable state of the `Simulator` object: the two devices and the
pending earthquake arrival time `self.quake`. -/
structure SimState where
  device1 : Device
  device2 : Device
  quake : ℚ
deriving DecidableEq

/-- The outcome of one iteration of the `while True` loop in
`Simulator.simulate` (lines 60-98): either the loop `break`s (the trial is
over, returning the current time), or it continues with an updated current
time, simulator state and random-stream position. -/
inductive StepOut where
  | terminated (t : ℚ)
  | running (t : ℚ) (s : SimState) (k : ℕ)
deriving DecidableEq

/-- `next_event = min(device1.next_maintenance, device2.next_maintenance,
quake)` (`main.py` line 62; Python's 3-argument `min` is the left fold). -/
def nextEvent (s : SimState) : ℚ :=
  min (min s.device1.next_maintenance s.device2.next_maintenance) s.quake

/-- One iteration of the `while True` loop of `Simulator.simulate`
(`main.py` lines 60-98), with `current_time` passed explicitly:
compute `next_event`; if `next_event == quake` and both devices are inside a
maintenance window at the (old) current time, `break`; otherwise advance
`current_time` to `next_event` and dispatch on the `if`/`elif`/`else` chain. -/
def simStep (dur : ℚ) (ω : ℚ → ℕ → ℚ) (current_time : ℚ) (s : SimState) (k : ℕ) :
    StepOut :=
  let next_event := nextEvent s
  if next_event = s.quake ∧ current_time < s.device1.end_maintenance ∧
      current_time < s.device2.end_maintenance then
    StepOut.terminated current_time
  else if next_event = s.device1.next_maintenance then
    let d1a := { s.device1 with
      next_maintenance := s.device1.next_maintenance + ω s.device1.shape k * s.device1.scale,
      end_maintenance := next_event + dur,
      failed := false }
    let d1b := if next_event < s.device2.end_maintenance then
        { d1a with next_maintenance := s.device2.end_maintenance + 1 }
      else d1a
    StepOut.running next_event { s with device1 := d1b } (k + 1)
  else if next_event = s.device2.next_maintenance then
    let d2a := { s.device2 with
      next_maintenance := s.device2.next_maintenance + ω s.device2.shape k * s.device2.scale,
      end_maintenance := next_event + dur,
      failed := false }
    let d2b := if next_event < s.device1.end_maintenance then
        { d2a with next_maintenance := s.device1.end_maintenance + 1 }
      else d2a
    StepOut.running next_event { s with device2 := d2b } (k + 1)
  else
    let d1c := if s.device1.end_maintenance ≤ next_event then
        { s.device1 with failed := true, next_maintenance := next_event + dur }
      else s.device1
    let d2c := if s.device2.end_maintenance ≤ next_event then
        { s.device2 with failed := true, next_maintenance := next_event + dur }
      else s.device2
    StepOut.running next_event
      { device1 := d1c, device2 := d2c, quake := next_event + ω 3 k * 100 } (k + 1)

/-- The `while True` loop of `Simulator.simulate`, run for at most `n`
iterations (`n` is fuel: the Python loop is unbounded, so a run that does not
`break` within `n` iterations yields `none`).  On termination it returns the
returned `current_time` together with the simulator state and stream position
left behind by the loop. -/
def simulateAux (dur : ℚ) (ω : ℚ → ℕ → ℚ) :
    ℕ → ℚ → SimState → ℕ → Option (ℚ × SimState × ℕ)
  | 0, _, _, _ => none
  | n + 1, t, s, k =>
    match simStep dur ω t s k with
    | StepOut.terminated r => some (r, s, k)
    | StepOut.running t2 s2 k2 => simulateAux dur ω n t2 s2 k2

/-- `Simulator.simulate` (`main.py` lines 57-100): `current_time` starts at
`0.0` (the `quake_clock` local is never read).  `fuel` bounds the number of
loop iterations. -/
def simulate (dur : ℚ) (ω : ℚ → ℕ → ℚ) (fuel : ℕ) (s : SimState) (k : ℕ) :
    Option (ℚ × SimState × ℕ) :=
  simulateAux dur ω fuel 0 s k

/-- The `_replace` applied to each device by `Simulator.reset`
(`main.py` lines 53-54): `next_maintenance` becomes the device's `scale`
parameter, `end_maintenance` becomes `0`, `failed` becomes `False`. -/
def resetDevice (d : Device) : Device :=
  { d with next_maintenance := d.scale, end_maintenance := 0, failed := false }

/-- `Simulator.reset` (`main.py` lines 51-55): both devices are reset and
`self.quake` is redrawn as `np.random.weibull(q_slope) * q_scale`,
consuming one position of the random stream. -/
def resetS (ω : ℚ → ℕ → ℚ) (s : SimState) (k : ℕ) : SimState × ℕ :=
  (⟨resetDevice s.device1, resetDevice s.device2, ω q_slope k * q_scale⟩, k + 1)

/-- `np.mean` on a list of rationals. -/
def npMean (l : List ℚ) : ℚ := l.sum / (l.length : ℚ)

/-- The inner loop of `run_simulation` (`main.py` lines 115-118): run `n`
trials, each being `simulator.simulate()` followed by `simulator.reset()`
(reset comes *after* the trial), collecting the termination times in order.
As ghost instrumentation it also records the simulator state each trial was
started from.  `none` if some trial exceeds the per-trial fuel. -/
def runTrialsBatch (dur : ℚ) (ω : ℚ → ℕ → ℚ) (fuel : ℕ) :
    ℕ → SimState → ℕ → Option (List ℚ × List SimState × SimState × ℕ)
  | 0, s, k => some ([], [], s, k)
  | n + 1, s, k =>
    match simulate dur ω fuel s k with
    | none => none
    | some (t, sEnd, k1) =>
      let p := resetS ω sEnd k1
      match runTrialsBatch dur ω fuel n p.1 p.2 with
      | none => none
      | some (ts, starts, s3, k3) => some (t :: ts, s :: starts, s3, k3)

/-- The outer loop of `run_simulation` (`main.py` lines 113-121) over the
trial-count schedule: for each count run that many trials, record the batch's
termination-time sample and its `np.mean` (`average_times`), and thread the
simulator state and stream position into the next batch.  Also accumulates
the ghost list of trial start states. -/
def runSchedule (dur : ℚ) (ω : ℚ → ℕ → ℚ) (fuel : ℕ) :
    List ℕ → SimState → ℕ → Option (List (List ℚ) × List ℚ × List SimState × SimState × ℕ)
  | [], s, k => some ([], [], [], s, k)
  | n :: rest, s, k =>
    match runTrialsBatch dur ω fuel n s k with
    | none => none
    | some (ts, starts, s2, k2) =>
      match runSchedule dur ω fuel rest s2 k2 with
      | none => none
      | some (samples, avgs, starts2, s3, k3) =>
        some (ts :: samples, npMean ts :: avgs, starts ++ starts2, s3, k3)

/-- The x-coordinates `[1/n for n in simulation_runs]` of the convergence
plot (`main.py` line 151). -/
def convergenceX (schedule : List ℕ) : List ℚ :=
  List.map (fun n : ℕ => 1 / (n : ℚ)) schedule

/-- The convergence trace plotted on `main.py` line 151: the pairing of
`1/N` with the batch averages. -/
def convergencePoints (schedule : List ℕ) (avgs : List ℚ) : List (ℚ × ℚ) :=
  (convergenceX schedule).zip avgs

/-- `simulation_runs = [1000 * 2 ** i for i in range(8)]` (`main.py` line 111). -/
def simulationRuns : List ℕ := (List.range 8).map (fun i => 1000 * 2 ^ i)

/-- `device1` as constructed in `run_simulation` (`main.py` line 104). -/
def device1_config : Device := ⟨"Device 1", 2, 200, 30, 0, false⟩

/-- `device2` as constructed in `run_simulation` (`main.py` line 105). -/
def device2_config : Device := ⟨"Device 2", 3, 100, 180, 0, false⟩

/-- The part of a `SimState` that `Simulator.simulate` never writes: the
identity and Weibull parameters of the two devices. -/
def devConfig (s : SimState) : String × ℚ × ℚ × String × ℚ × ℚ :=
  (s.device1.name, s.device1.shape, s.device1.scale,
   s.device2.name, s.device2.shape, s.device2.scale)

/-- A state is reset-like for the configuration of `s₀` when both devices
carry the reset values of `s₀`'s device configurations and the quake time is
some draw of the initial-arrival law scaled by `q_scale`. -/
def isResetLike (ω : ℚ → ℕ → ℚ) (s₀ x : SimState) : Prop :=
  x.device1 = resetDevice s₀.device1 ∧ x.device2 = resetDevice s₀.device2 ∧
    ∃ j, x.quake = ω q_slope j * q_scale

/-- Forget the two `failed` flags of a state (they are write-only in
`Simulator.simulate`). -/
def stripFailed (s : SimState) : SimState :=
  ⟨{ s.device1 with failed := false }, { s.device2 with failed := false }, s.quake⟩

/-- Observation of a loop outcome up to the write-only `failed` flags. -/
def stepObs : StepOut → StepOut
  | StepOut.terminated t => StepOut.terminated t
  | StepOut.running t s k => StepOut.running t (stripFailed s) k

/-- The time-ordering invariant of the event race: the current time is at or
before every pending event. -/
def timeInv (t : ℚ) (s : SimState) : Prop :=
  t ≤ s.device1.next_maintenance ∧ t ≤ s.device2.next_maintenance ∧ t ≤ s.quake

/-- Projection of a trial outcome that forgets the write-only `failed`
flags of the final state. -/
def trialObs (x : ℚ × SimState × ℕ) : ℚ × SimState × ℕ :=
  (x.1, stripFailed x.2.1, x.2.2)

/-- Two states carry the same device configurations (the fields
`Simulator.simulate` never writes). -/
def sameDevCfg (x y : SimState) : Prop :=
  x.device1.name = y.device1.name ∧ x.device1.shape = y.device1.shape ∧
    x.device1.scale = y.device1.scale ∧ x.device2.name = y.device2.name ∧
    x.device2.shape = y.device2.shape ∧ x.device2.scale = y.device2.scale

instance (x y : SimState) : Decidable (sameDevCfg x y) := by
  unfold sameDevCfg; infer_instance

/-! ### Concrete data used by witnesses and counterexamples -/

/-- A random stream whose every draw is `1`. -/
def wOne : ℚ → ℕ → ℚ := fun _ _ => 1

/-- A random stream whose every draw is `0` (numpy's `weibull` can return
exactly `0.0`, since the underlying uniform can be exactly `0`). -/
def wZero : ℚ → ℕ → ℚ := fun _ _ => 0

/-- A trial state whose first event is a quake during double maintenance:
the trial terminates immediately at time `0`. -/
def sQuick : SimState :=
  ⟨⟨"Device 1", 2, 10, 10, 5, false⟩, ⟨"Device 2", 3, 10, 10, 5, false⟩, 3⟩

/-- State for the C1 counterexample: device 1's maintenance is due at `10`
while device 2 is inside its window until `20`, and device 1 enters the event
with `failed = true` and `end_maintenance = 0`. -/
def sDefer : SimState :=
  ⟨⟨"Device 1", 2, 200, 10, 0, true⟩, ⟨"Device 2", 3, 100, 50, 20, false⟩, 100⟩

/-- The state `simStep` produces from `sDefer` (deferral overwrites
`next_maintenance` only; `end_maintenance`/`failed` keep the values written
by the normal maintenance update). -/
def sDeferAfter : SimState :=
  ⟨⟨"Device 1", 2, 200, 21, 40, false⟩, ⟨"Device 2", 3, 100, 50, 20, false⟩, 100⟩

/-- Mirror image of `sDefer` for device 2's branch. -/
def sDefer2 : SimState :=
  ⟨⟨"Device 1", 2, 200, 50, 20, false⟩, ⟨"Device 2", 3, 100, 10, 0, true⟩, 100⟩

/-- State for the C4 counterexample: `device1.next_maintenance` ties with the
quake time at `50` while both devices are mid-maintenance at the current
time `40`. -/
def sTie : SimState :=
  ⟨⟨"Device 1", 2, 200, 50, 60, false⟩, ⟨"Device 2", 3, 100, 80, 70, false⟩, 50⟩

/-- State for the C5 counterexample: with the all-zero draw stream the first
event (device 1 maintenance at `5`) recurs forever, so the `while True` loop
never exits.  All shape/scale parameters and the maintenance duration are
positive. -/
def sLoop : SimState :=
  ⟨⟨"Device 1", 2, 200, 5, 0, false⟩, ⟨"Device 2", 3, 100, 100, 0, false⟩, 200⟩

/-- The fixed point the loop reaches from `sLoop` after one iteration under
the all-zero draw stream. -/
def sLoopFix : SimState :=
  ⟨⟨"Device 1", 2, 200, 5, 35, false⟩, ⟨"Device 2", 3, 100, 100, 0, false⟩, 200⟩

/-- `sQuick` with device 1's `failed` flag flipped (for the C9 witness). -/
def sQuickF : SimState :=
  ⟨⟨"Device 1", 2, 10, 10, 5, true⟩, ⟨"Device 2", 3, 10, 10, 5, false⟩, 3⟩

/-- The reset state reached from `sQuick`'s configuration under `wOne`. -/
def sQuickReset : SimState :=
  ⟨⟨"Device 1", 2, 10, 10, 0, false⟩, ⟨"Device 2", 3, 10, 10, 0, false⟩, 200⟩

/-- Tie state in which device 1's maintenance ties with the quake at `50`
but only device 1 is mid-maintenance at the current time `40`, so the
dispatch (not the termination check) decides the tie. -/
def sTieRun : SimState :=
  ⟨⟨"Device 1", 2, 200, 50, 60, false⟩, ⟨"Device 2", 3, 100, 80, 0, false⟩, 50⟩

/-- State whose next event is the quake at `5`, with device 1 outside its
maintenance window and device 2 inside one until `50`. -/
def sQuakeW : SimState :=
  ⟨⟨"Device 1", 2, 200, 10, 0, false⟩, ⟨"Device 2", 3, 100, 20, 50, false⟩, 5⟩

/-- A state with the same device configurations as `sQuick` but arbitrary
mutable fields (schedules, windows, failure flags). -/
def sDirty : SimState :=
  ⟨⟨"Device 1", 2, 10, 999, 77, true⟩, ⟨"Device 2", 3, 10, 888, 66, true⟩, 5⟩

/-- `sQuick` with device 1's constructed `next_maintenance` (30) different
from its `scale` (10), mirroring the asymmetry of `run_simulation`'s
`device1 = Device(..., scale=200, next_maintenance=30, ...)`. -/
def sQuickB : SimState :=
  ⟨⟨"Device 1", 2, 10, 30, 5, false⟩, ⟨"Device 2", 3, 10, 10, 5, false⟩, 3⟩

instance (t : ℚ) (s : SimState) : Decidable (timeInv t s) := by
  unfold timeInv; infer_instance

/-! ### Helper lemmas about one loop iteration -/

lemma nextEvent_le_dev1 (s : SimState) : nextEvent s ≤ s.device1.next_maintenance :=
  le_trans (min_le_left _ _) (min_le_left _ _)

lemma nextEvent_le_dev2 (s : SimState) : nextEvent s ≤ s.device2.next_maintenance :=
  le_trans (min_le_left _ _) (min_le_right _ _)

lemma nextEvent_le_quake (s : SimState) : nextEvent s ≤ s.quake :=
  min_le_right _ _

lemma nextEvent_cases (s : SimState) :
    nextEvent s = s.device1.next_maintenance ∨ nextEvent s = s.device2.next_maintenance ∨
      nextEvent s = s.quake := by
  unfold nextEvent
  rcases min_choice (min s.device1.next_maintenance s.device2.next_maintenance) s.quake with
    h | h
  · rcases min_choice s.device1.next_maintenance s.device2.next_maintenance with h2 | h2
    · exact Or.inl (h.trans h2)
    · exact Or.inr (Or.inl (h.trans h2))
  · exact Or.inr (Or.inr h)

lemma le_nextEvent_of_timeInv {t : ℚ} {s : SimState} (h : timeInv t s) :
    t ≤ nextEvent s :=
  le_min (le_min h.1 h.2.1) h.2.2

lemma simStep_term (dur : ℚ) (ω : ℚ → ℕ → ℚ) (t : ℚ) (s : SimState) (k : ℕ)
    (hq : nextEvent s = s.quake)
    (h1 : t < s.device1.end_maintenance) (h2 : t < s.device2.end_maintenance) :
    simStep dur ω t s k = StepOut.terminated t := by
  simp only [simStep]
  rw [if_pos ⟨hq, h1, h2⟩]

lemma simStep_dev1 (dur : ℚ) (ω : ℚ → ℕ → ℚ) (t : ℚ) (s : SimState) (k : ℕ)
    (hnt : ¬ (nextEvent s = s.quake ∧
      t < s.device1.end_maintenance ∧ t < s.device2.end_maintenance))
    (h1 : nextEvent s = s.device1.next_maintenance) :
    simStep dur ω t s k = StepOut.running (nextEvent s)
      { s with device1 :=
        (if nextEvent s < s.device2.end_maintenance then
          { s.device1 with
            next_maintenance := s.device2.end_maintenance + 1,
            end_maintenance := nextEvent s + dur,
            failed := false }
        else
          { s.device1 with
            next_maintenance :=
              s.device1.next_maintenance + ω s.device1.shape k * s.device1.scale,
            end_maintenance := nextEvent s + dur,
            failed := false }) } (k + 1) := by
  simp only [simStep]
  rw [if_neg hnt, if_pos h1]

lemma simStep_dev2 (dur : ℚ) (ω : ℚ → ℕ → ℚ) (t : ℚ) (s : SimState) (k : ℕ)
    (hnt : ¬ (nextEvent s = s.quake ∧
      t < s.device1.end_maintenance ∧ t < s.device2.end_maintenance))
    (h1 : ¬ nextEvent s = s.device1.next_maintenance)
    (h2 : nextEvent s = s.device2.next_maintenance) :
    simStep dur ω t s k = StepOut.running (nextEvent s)
      { s with device2 :=
        (if nextEvent s < s.device1.end_maintenance then
          { s.device2 with
            next_maintenance := s.device1.end_maintenance + 1,
            end_maintenance := nextEvent s + dur,
            failed := false }
        else
          { s.device2 with
            next_maintenance :=
              s.device2.next_maintenance + ω s.device2.shape k * s.device2.scale,
            end_maintenance := nextEvent s + dur,
            failed := false }) } (k + 1) := by
  simp only [simStep]
  rw [if_neg hnt, if_neg h1, if_pos h2]

lemma simStep_quake (dur : ℚ) (ω : ℚ → ℕ → ℚ) (t : ℚ) (s : SimState) (k : ℕ)
    (hnt : ¬ (nextEvent s = s.quake ∧
      t < s.device1.end_maintenance ∧ t < s.device2.end_maintenance))
    (h1 : ¬ nextEvent s = s.device1.next_maintenance)
    (h2 : ¬ nextEvent s = s.device2.next_maintenance) :
    simStep dur ω t s k = StepOut.running (nextEvent s)
      { device1 :=
          (if s.device1.end_maintenance ≤ nextEvent s then
            { s.device1 with failed := true, next_maintenance := nextEvent s + dur }
          else s.device1),
        device2 :=
          (if s.device2.end_maintenance ≤ nextEvent s then
            { s.device2 with failed := true, next_maintenance := nextEvent s + dur }
          else s.device2),
        quake := nextEvent s + ω 3 k * 100 } (k + 1) := by
  simp only [simStep]
  rw [if_neg hnt, if_neg h1, if_neg h2]

lemma simStep_terminated_eq {dur : ℚ} {ω : ℚ → ℕ → ℚ} {t : ℚ} {s : SimState} {k : ℕ}
    {r : ℚ} (h : simStep dur ω t s k = StepOut.terminated r) : r = t := by
  simp only [simStep] at h
  split_ifs at h
  all_goals injection h with h1
  exact h1.symm

lemma simStep_running_inv {dur : ℚ} {ω : ℚ → ℕ → ℚ} {t : ℚ} {s : SimState} {k : ℕ}
    {t' : ℚ} {s' : SimState} {k' : ℕ}
    (h : simStep dur ω t s k = StepOut.running t' s' k') :
    t' = nextEvent s ∧ k' = k + 1 ∧ sameDevCfg s' s := by
  simp only [simStep] at h
  split_ifs at h
  all_goals injection h with e1 e2 e3
  all_goals
    subst e1; subst e2; subst e3
    refine ⟨rfl, rfl, ?_⟩
    unfold sameDevCfg
    exact ⟨rfl, rfl, rfl, rfl, rfl, rfl⟩

lemma simStep_mono {dur : ℚ} {ω : ℚ → ℕ → ℚ} {t : ℚ} {s : SimState} {k : ℕ}
    (hω : ∀ a j, 0 ≤ ω a j) (hdur : 0 ≤ dur)
    (hsc1 : 0 ≤ s.device1.scale) (hsc2 : 0 ≤ s.device2.scale)
    (hInv : timeInv t s) :
    ∀ {t' : ℚ} {s' : SimState} {k' : ℕ},
      simStep dur ω t s k = StepOut.running t' s' k' → t ≤ t' ∧ timeInv t' s' := by
  intro t' s' k' h
  have hle : t ≤ nextEvent s := le_nextEvent_of_timeInv hInv
  by_cases hterm : nextEvent s = s.quake ∧ t < s.device1.end_maintenance ∧
      t < s.device2.end_maintenance
  · rw [simStep_term dur ω t s k hterm.1 hterm.2.1 hterm.2.2] at h
    exact StepOut.noConfusion h
  by_cases hd1 : nextEvent s = s.device1.next_maintenance
  · rw [simStep_dev1 dur ω t s k hterm hd1] at h
    injection h with e1 e2 e3
    subst e1; subst e2
    refine ⟨hle, ?_, nextEvent_le_dev2 s, nextEvent_le_quake s⟩
    split
    · next hdef =>
        exact le_trans (le_of_lt hdef) (le_add_of_nonneg_right zero_le_one)
    · show nextEvent s ≤ s.device1.next_maintenance + ω s.device1.shape k * s.device1.scale
      rw [hd1]
      exact le_add_of_nonneg_right (mul_nonneg (hω _ _) hsc1)
  by_cases hd2 : nextEvent s = s.device2.next_maintenance
  · rw [simStep_dev2 dur ω t s k hterm hd1 hd2] at h
    injection h with e1 e2 e3
    subst e1; subst e2
    refine ⟨hle, nextEvent_le_dev1 s, ?_, nextEvent_le_quake s⟩
    split
    · next hdef =>
        exact le_trans (le_of_lt hdef) (le_add_of_nonneg_right zero_le_one)
    · show nextEvent s ≤ s.device2.next_maintenance + ω s.device2.shape k * s.device2.scale
      rw [hd2]
      exact le_add_of_nonneg_right (mul_nonneg (hω _ _) hsc2)
  · rw [simStep_quake dur ω t s k hterm hd1 hd2] at h
    injection h with e1 e2 e3
    subst e1; subst e2
    refine ⟨hle, ?_, ?_, ?_⟩
    · dsimp only
      split
      · exact le_add_of_nonneg_right hdur
      · exact nextEvent_le_dev1 s
    · dsimp only
      split
      · exact le_add_of_nonneg_right hdur
      · exact nextEvent_le_dev2 s
    · exact le_add_of_nonneg_right (mul_nonneg (hω _ _) (by norm_num))

/-! ### Helper lemmas about the whole loop -/

lemma simulateAux_mono {dur : ℚ} {ω : ℚ → ℕ → ℚ}
    (hω : ∀ a j, 0 ≤ ω a j) (hdur : 0 ≤ dur) :
    ∀ (n : ℕ) {t : ℚ} {s : SimState} {k : ℕ} {r : ℚ} {s' : SimState} {k' : ℕ},
      0 ≤ s.device1.scale → 0 ≤ s.device2.scale → timeInv t s →
      simulateAux dur ω n t s k = some (r, s', k') → t ≤ r := by
  intro n
  induction n with
  | zero =>
    intro t s k r s' k' _ _ _ h
    exact Option.noConfusion h
  | succ n ih =>
    intro t s k r s' k' hc1 hc2 hInv h
    simp only [simulateAux] at h
    cases hstep : simStep dur ω t s k with
    | terminated r0 =>
      rw [hstep] at h
      injection h with h1
      injection h1 with h2 h3
      rw [← h2, simStep_terminated_eq hstep]
    | running t2 s2 k2 =>
      rw [hstep] at h
      have hrun := simStep_running_inv hstep
      have hm := simStep_mono hω hdur hc1 hc2 hInv hstep
      have hc1' : 0 ≤ s2.device1.scale := by rw [hrun.2.2.2.2.1]; exact hc1
      have hc2' : 0 ≤ s2.device2.scale := by rw [hrun.2.2.2.2.2.2.2]; exact hc2
      exact le_trans hm.1 (ih hc1' hc2' hm.2 h)

lemma simulateAux_config {dur : ℚ} {ω : ℚ → ℕ → ℚ} :
    ∀ (n : ℕ) {t : ℚ} {s : SimState} {k : ℕ} {r : ℚ} {s' : SimState} {k' : ℕ},
      simulateAux dur ω n t s k = some (r, s', k') → sameDevCfg s' s := by
  intro n
  induction n with
  | zero =>
    intro t s k r s' k' h
    exact Option.noConfusion h
  | succ n ih =>
    intro t s k r s' k' h
    simp only [simulateAux] at h
    cases hstep : simStep dur ω t s k with
    | terminated r0 =>
      rw [hstep] at h
      injection h with h1
      injection h1 with h2 h3
      injection h3 with h4 h5
      rw [← h4]
      exact ⟨rfl, rfl, rfl, rfl, rfl, rfl⟩
    | running t2 s2 k2 =>
      rw [hstep] at h
      have hrun := (simStep_running_inv hstep).2.2
      have hrec := ih h
      unfold sameDevCfg at hrun hrec ⊢
      exact ⟨hrec.1.trans hrun.1, hrec.2.1.trans hrun.2.1, hrec.2.2.1.trans hrun.2.2.1,
        hrec.2.2.2.1.trans hrun.2.2.2.1, hrec.2.2.2.2.1.trans hrun.2.2.2.2.1,
        hrec.2.2.2.2.2.trans hrun.2.2.2.2.2⟩

/-! ### Helper lemmas for the `failed`-noninterference claim -/

lemma simStep_stripFailed (dur : ℚ) (ω : ℚ → ℕ → ℚ) (t : ℚ) (k : ℕ) :
    ∀ {s₁ s₂ : SimState}, stripFailed s₁ = stripFailed s₂ →
      stepObs (simStep dur ω t s₁ k) = stepObs (simStep dur ω t s₂ k) := by
  rintro ⟨⟨n1, a1, c1, m1, e1, f1⟩, ⟨n2, a2, c2, m2, e2, f2⟩, q⟩
    ⟨⟨n1', a1', c1', m1', e1', f1'⟩, ⟨n2', a2', c2', m2', e2', f2'⟩, q'⟩ h
  simp only [stripFailed, SimState.mk.injEq, Device.mk.injEq, and_true] at h
  obtain ⟨⟨hn1, ha1, hc1, hm1, he1⟩, ⟨hn2, ha2, hc2, hm2, he2⟩, hq⟩ := h
  subst hn1; subst ha1; subst hc1; subst hm1; subst he1
  subst hn2; subst ha2; subst hc2; subst hm2; subst he2
  subst hq
  simp only [simStep, nextEvent]
  split_ifs <;> rfl

lemma simulateAux_stripFailed {dur : ℚ} {ω : ℚ → ℕ → ℚ} :
    ∀ (n : ℕ) {t : ℚ} {k : ℕ} {s₁ s₂ : SimState}, stripFailed s₁ = stripFailed s₂ →
      (simulateAux dur ω n t s₁ k).map trialObs =
        (simulateAux dur ω n t s₂ k).map trialObs := by
  intro n
  induction n with
  | zero => intro t k s₁ s₂ _; rfl
  | succ n ih =>
    intro t k s₁ s₂ h
    have hs := simStep_stripFailed dur ω t k h
    simp only [simulateAux]
    cases h1 : simStep dur ω t s₁ k with
    | terminated r1 =>
      cases h2 : simStep dur ω t s₂ k with
      | terminated r2 =>
        rw [h1, h2] at hs
        simp only [stepObs] at hs
        injection hs with hr
        simp only [Option.map, trialObs, hr, h]
      | running t2 s2' k2 =>
        rw [h1, h2] at hs
        simp only [stepObs] at hs
        exact StepOut.noConfusion hs
    | running t1 s1' k1 =>
      cases h2 : simStep dur ω t s₂ k with
      | terminated r2 =>
        rw [h1, h2] at hs
        simp only [stepObs] at hs
        exact StepOut.noConfusion hs
      | running t2 s2' k2 =>
        rw [h1, h2] at hs
        simp only [stepObs] at hs
        injection hs with ht hsf hk
        subst ht; subst hk
        exact ih hsf

/-! ### Helper lemmas about the Monte-Carlo driver -/

lemma sameDevCfg_refl (s : SimState) : sameDevCfg s s :=
  ⟨rfl, rfl, rfl, rfl, rfl, rfl⟩

lemma sameDevCfg_trans {a b c : SimState} (h1 : sameDevCfg a b) (h2 : sameDevCfg b c) :
    sameDevCfg a c :=
  ⟨h1.1.trans h2.1, h1.2.1.trans h2.2.1, h1.2.2.1.trans h2.2.2.1,
    h1.2.2.2.1.trans h2.2.2.2.1, h1.2.2.2.2.1.trans h2.2.2.2.2.1,
    h1.2.2.2.2.2.trans h2.2.2.2.2.2⟩

lemma resetDevice_val (d : Device) :
    resetDevice d = ⟨d.name, d.shape, d.scale, d.scale, 0, false⟩ := rfl

lemma resetDevice_congr {d e : Device} (hn : d.name = e.name) (hs : d.shape = e.shape)
    (hc : d.scale = e.scale) : resetDevice d = resetDevice e := by
  rw [resetDevice_val, resetDevice_val, hn, hs, hc]

lemma isResetLike_congr {ω : ℚ → ℕ → ℚ} {s' s x : SimState} (hc : sameDevCfg s' s)
    (h : isResetLike ω s' x) : isResetLike ω s x := by
  obtain ⟨h1, h2, h3⟩ := h
  refine ⟨?_, ?_, h3⟩
  · rw [h1]
    exact resetDevice_congr hc.1 hc.2.1 hc.2.2.1
  · rw [h2]
    exact resetDevice_congr hc.2.2.2.1 hc.2.2.2.2.1 hc.2.2.2.2.2

lemma resetS_fst_isResetLike (ω : ℚ → ℕ → ℚ) (s : SimState) (k : ℕ) :
    isResetLike ω s (resetS ω s k).1 :=
  ⟨rfl, rfl, ⟨k, rfl⟩⟩

lemma isResetLike_sameDevCfg {ω : ℚ → ℕ → ℚ} {s x : SimState}
    (h : isResetLike ω s x) : sameDevCfg x s := by
  obtain ⟨h1, h2, _⟩ := h
  unfold sameDevCfg
  rw [h1, h2]
  exact ⟨rfl, rfl, rfl, rfl, rfl, rfl⟩

lemma runTrialsBatch_lengths {dur : ℚ} {ω : ℚ → ℕ → ℚ} {fuel : ℕ} :
    ∀ (n : ℕ) {s : SimState} {k : ℕ} {ts : List ℚ} {starts : List SimState}
      {s' : SimState} {k' : ℕ},
      runTrialsBatch dur ω fuel n s k = some (ts, starts, s', k') →
      ts.length = n ∧ starts.length = n := by
  intro n
  induction n with
  | zero =>
    intro s k ts starts s' k' h
    simp only [runTrialsBatch] at h
    injection h with h1
    injection h1 with h2 h3
    injection h3 with h4 h5
    rw [← h2, ← h4]
    exact ⟨rfl, rfl⟩
  | succ n ih =>
    intro s k ts starts s' k' h
    simp only [runTrialsBatch] at h
    cases hsim : simulate dur ω fuel s k with
    | none => rw [hsim] at h; exact Option.noConfusion h
    | some v =>
      obtain ⟨t, sEnd, k1⟩ := v
      rw [hsim] at h
      simp only at h
      cases hrec : runTrialsBatch dur ω fuel n (resetS ω sEnd k1).1 (resetS ω sEnd k1).2 with
      | none => rw [hrec] at h; exact Option.noConfusion h
      | some w =>
        obtain ⟨ts0, starts0, s3, k3⟩ := w
        rw [hrec] at h
        simp only at h
        injection h with h1
        injection h1 with h2 h3
        injection h3 with h4 h5
        obtain ⟨hl1, hl2⟩ := ih hrec
        rw [← h2, ← h4]
        constructor
        · simpa using congrArg Nat.succ hl1
        · simpa using congrArg Nat.succ hl2

lemma runTrialsBatch_starts {dur : ℚ} {ω : ℚ → ℕ → ℚ} {fuel : ℕ} :
    ∀ (n : ℕ) {s : SimState} {k : ℕ} {ts : List ℚ} {starts : List SimState}
      {s' : SimState} {k' : ℕ},
      runTrialsBatch dur ω fuel n s k = some (ts, starts, s', k') →
      sameDevCfg s' s ∧ (n = 0 → starts = [] ∧ s' = s) ∧
        (0 < n → (∃ rest, starts = s :: rest ∧ ∀ x ∈ rest, isResetLike ω s x) ∧
          isResetLike ω s s') := by
  intro n
  induction n with
  | zero =>
    intro s k ts starts s' k' h
    simp only [runTrialsBatch] at h
    injection h with h1
    injection h1 with h2 h3
    injection h3 with h4 h5
    injection h5 with h6 h7
    rw [← h4, ← h6]
    exact ⟨sameDevCfg_refl s, fun _ => ⟨rfl, rfl⟩, fun hlt => absurd hlt (lt_irrefl 0)⟩
  | succ n ih =>
    intro s k ts starts s' k' h
    simp only [runTrialsBatch] at h
    cases hsim : simulate dur ω fuel s k with
    | none => rw [hsim] at h; exact Option.noConfusion h
    | some v =>
      obtain ⟨t, sEnd, k1⟩ := v
      rw [hsim] at h
      simp only at h
      cases hrec : runTrialsBatch dur ω fuel n (resetS ω sEnd k1).1 (resetS ω sEnd k1).2 with
      | none => rw [hrec] at h; exact Option.noConfusion h
      | some w =>
        obtain ⟨ts0, starts0, s3, k3⟩ := w
        rw [hrec] at h
        simp only at h
        injection h with h1
        injection h1 with h2 h3
        injection h3 with h4 h5
        injection h5 with h6 h7
        have hcfgEnd : sameDevCfg sEnd s := simulateAux_config fuel hsim
        have hres2 : isResetLike ω s (resetS ω sEnd k1).1 :=
          isResetLike_congr hcfgEnd (resetS_fst_isResetLike ω sEnd k1)
        have hcfg2 : sameDevCfg (resetS ω sEnd k1).1 s := isResetLike_sameDevCfg hres2
        obtain ⟨ihc, ih0, ihpos⟩ := ih hrec
        subst h6
        refine ⟨sameDevCfg_trans ihc hcfg2, fun h0 => absurd h0 (Nat.succ_ne_zero n), ?_⟩
        intro _
        rcases Nat.eq_zero_or_pos n with hn | hn
        · obtain ⟨hst0, hs3⟩ := ih0 hn
          subst hst0
          refine ⟨⟨[], by rw [← h4], ?_⟩, ?_⟩
          · intro x hx
            exact absurd hx (List.not_mem_nil x)
          · rw [hs3]
            exact hres2
        · obtain ⟨⟨rest0, hrest0, hall0⟩, hres3⟩ := ihpos hn
          refine ⟨⟨starts0, by rw [← h4], ?_⟩, isResetLike_congr hcfg2 hres3⟩
          intro x hx
          rw [hrest0] at hx
          rcases List.mem_cons.mp hx with hx1 | hx2
          · rw [hx1]
            exact hres2
          · exact isResetLike_congr hcfg2 (hall0 x hx2)

lemma runSchedule_shape {dur : ℚ} {ω : ℚ → ℕ → ℚ} {fuel : ℕ} :
    ∀ (sch : List ℕ) {s : SimState} {k : ℕ} {samples : List (List ℚ)} {avgs : List ℚ}
      {starts : List SimState} {s' : SimState} {k' : ℕ},
      runSchedule dur ω fuel sch s k = some (samples, avgs, starts, s', k') →
      samples.map List.length = sch ∧ avgs = samples.map npMean := by
  intro sch
  induction sch with
  | nil =>
    intro s k samples avgs starts s' k' h
    simp only [runSchedule] at h
    injection h with h1
    injection h1 with h2 h3
    injection h3 with h4 h5
    rw [← h2, ← h4]
    exact ⟨rfl, rfl⟩
  | cons n rest ih =>
    intro s k samples avgs starts s' k' h
    simp only [runSchedule] at h
    cases hb : runTrialsBatch dur ω fuel n s k with
    | none => rw [hb] at h; exact Option.noConfusion h
    | some v =>
      obtain ⟨ts, starts1, s2, k2⟩ := v
      rw [hb] at h
      simp only at h
      cases hrec : runSchedule dur ω fuel rest s2 k2 with
      | none => rw [hrec] at h; exact Option.noConfusion h
      | some w =>
        obtain ⟨samples0, avgs0, starts2, s3, k3⟩ := w
        rw [hrec] at h
        simp only at h
        injection h with h1
        injection h1 with h2 h3
        injection h3 with h4 h5
        obtain ⟨ihl, iha⟩ := ih hrec
        rw [← h2, ← h4]
        constructor
        · simp only [List.map_cons, ihl, List.cons.injEq]
          exact ⟨(runTrialsBatch_lengths n hb).1, trivial⟩
        · simp only [List.map_cons, iha]

lemma runSchedule_starts {dur : ℚ} {ω : ℚ → ℕ → ℚ} {fuel : ℕ} :
    ∀ (sch : List ℕ) {s : SimState} {k : ℕ} {samples : List (List ℚ)} {avgs : List ℚ}
      {starts : List SimState} {s' : SimState} {k' : ℕ},
      (∀ m ∈ sch, 0 < m) →
      runSchedule dur ω fuel sch s k = some (samples, avgs, starts, s', k') →
      sameDevCfg s' s ∧ (sch = [] → starts = [] ∧ s' = s) ∧
        (sch ≠ [] → (∃ rest, starts = s :: rest ∧ ∀ x ∈ rest, isResetLike ω s x) ∧
          isResetLike ω s s') := by
  intro sch
  induction sch with
  | nil =>
    intro s k samples avgs starts s' k' _ h
    simp only [runSchedule] at h
    injection h with h1
    injection h1 with h2 h3
    injection h3 with h4 h5
    injection h5 with h6 h7
    injection h7 with h8 h9
    rw [← h6, ← h8]
    exact ⟨sameDevCfg_refl s, fun _ => ⟨rfl, rfl⟩, fun hne => absurd rfl hne⟩
  | cons n rest ih =>
    intro s k samples avgs starts s' k' hpos h
    simp only [runSchedule] at h
    cases hb : runTrialsBatch dur ω fuel n s k with
    | none => rw [hb] at h; exact Option.noConfusion h
    | some v =>
      obtain ⟨ts, starts1, s2, k2⟩ := v
      rw [hb] at h
      simp only at h
      cases hrec : runSchedule dur ω fuel rest s2 k2 with
      | none => rw [hrec] at h; exact Option.noConfusion h
      | some w =>
        obtain ⟨samples0, avgs0, starts2, s3, k3⟩ := w
        rw [hrec] at h
        simp only at h
        injection h with h1
        injection h1 with h2 h3
        injection h3 with h4 h5
        injection h5 with h6 h7
        injection h7 with h8 h9
        subst h8
        have hn : 0 < n := hpos n (List.mem_cons_self n rest)
        obtain ⟨hbc, _, hbpos⟩ := runTrialsBatch_starts n hb
        obtain ⟨⟨rest1, hrest1, hall1⟩, hres2⟩ := hbpos hn
        have hcfg2 : sameDevCfg s2 s := isResetLike_sameDevCfg hres2
        obtain ⟨ihc, ih0, ihne⟩ := ih (fun m hm => hpos m (List.mem_cons_of_mem n hm)) hrec
        refine ⟨sameDevCfg_trans ihc hcfg2, fun hceq => List.noConfusion hceq, ?_⟩
        intro _
        cases rest with
        | nil =>
          obtain ⟨hst2, hs3⟩ := ih0 rfl
          subst hst2
          refine ⟨⟨rest1, ?_, hall1⟩, ?_⟩
          · rw [← h6, hrest1, List.append_nil]
          · rw [hs3]
            exact hres2
        | cons m rest' =>
          obtain ⟨⟨rest2, hrest2, hall2⟩, hres3⟩ := ihne (List.cons_ne_nil m rest')
          refine ⟨⟨rest1 ++ s2 :: rest2, ?_, ?_⟩, isResetLike_congr hcfg2 hres3⟩
          · rw [← h6, hrest1, hrest2]
            rfl
          · intro x hx
            rcases List.mem_append.mp hx with hx1 | hx2
            · exact hall1 x hx1
            · rcases List.mem_cons.mp hx2 with hx3 | hx4
              · rw [hx3]
                exact hres2
              · exact isResetLike_congr hcfg2 (hall2 x hx4)

/-! ### Helper lemmas for the non-termination counterexample -/

lemma sLoopFix_step (k : ℕ) :
    simStep 30 wZero 5 sLoopFix k = StepOut.running 5 sLoopFix (k + 1) := by
  rw [simStep_dev1 30 wZero 5 sLoopFix k (by with_unfolding_all decide)
    (by with_unfolding_all decide), if_neg (by with_unfolding_all decide)]
  congr 1
  rw [show wZero sLoopFix.device1.shape k = 0 from rfl]
  with_unfolding_all decide

lemma sLoopFix_never (n : ℕ) : ∀ k, simulateAux 30 wZero n 5 sLoopFix k = none := by
  induction n with
  | zero => intro k; rfl
  | succ n ih =>
    intro k
    simp only [simulateAux, sLoopFix_step k]
    exact ih (k + 1)

lemma sLoop_never (n : ℕ) : simulate 30 wZero n sLoop 0 = none := by
  cases n with
  | zero => rfl
  | succ n =>
    have hstep : simStep 30 wZero 0 sLoop 0 = StepOut.running 5 sLoopFix 1 := by
      with_unfolding_all decide
    simp only [simulate, simulateAux, hstep]
    exact sLoopFix_never n 1

/-! ### Claim theorems -/

/-- C2: whenever the minimum of the two `next_maintenance` times and the
quake time equals the quake time, and at the current time (before any
advance) both devices are inside their maintenance windows, the trial
terminates immediately and returns the current `current_time` unchanged,
consuming no random draws and applying no further state transition. -/
theorem claim_C2_quake_during_double_maintenance (dur : ℚ) (ω : ℚ → ℕ → ℚ)
    (n : ℕ) (t : ℚ) (s : SimState) (k : ℕ)
    (hq : nextEvent s = s.quake)
    (h1 : t < s.device1.end_maintenance) (h2 : t < s.device2.end_maintenance) :
    simulateAux dur ω (n + 1) t s k = some (t, s, k) := by
  simp only [simulateAux, simStep_term dur ω t s k hq h1 h2]

/-- C2 witness: from `sQuick` at time `0` the quake at `3` is the minimum
while both windows extend to `5`, and the trial returns `0` at once. -/
theorem claim_C2_witness : simulateAux 30 wOne (0 + 1) 0 sQuick 0 = some (0, sQuick, 0) :=
  claim_C2_quake_during_double_maintenance 30 wOne 0 0 sQuick 0
    (by with_unfolding_all decide) (by with_unfolding_all decide)
    (by with_unfolding_all decide)

/-- C1 counterexample: in `sDefer`, device 1's maintenance event fires at
time `10` while device 2 is inside its window until `20`, so the deferral
applies; but the resulting device 1 has `end_maintenance = 40 ≠ 0` and
`failed = false ≠ true`: the event does *not* leave `failed` and
`end_maintenance` as they were — only `next_maintenance` is superseded. -/
theorem claim_C1_counterexample :
    nextEvent sDefer = sDefer.device1.next_maintenance ∧
      nextEvent sDefer < sDefer.device2.end_maintenance ∧
      simStep 30 wOne 0 sDefer 0 = StepOut.running 10 sDeferAfter 1 ∧
      sDeferAfter.device1.next_maintenance = sDefer.device2.end_maintenance + 1 ∧
      sDeferAfter.device1.end_maintenance ≠ sDefer.device1.end_maintenance ∧
      sDeferAfter.device1.failed ≠ sDefer.device1.failed := by
  with_unfolding_all decide

/-- C1 (amended): if device A's scheduled maintenance event fires at
`t = nextEvent` while the other device B is still inside its maintenance
window (`nextEvent < B.end_maintenance`), then A leaves the event with
`next_maintenance = B.end_maintenance + 1` exactly; its other fields do not
stay as they were: `end_maintenance` becomes `nextEvent + duration` and
`failed` becomes `false` (the deferral supersedes only the `next_maintenance`
part of the normal update).  Stated for both devices. -/
theorem claim_C1_deferral (dur : ℚ) (ω : ℚ → ℕ → ℚ) (t : ℚ) (s : SimState) (k : ℕ)
    (hnt : ¬ (nextEvent s = s.quake ∧ t < s.device1.end_maintenance ∧
      t < s.device2.end_maintenance)) :
    (nextEvent s = s.device1.next_maintenance →
      nextEvent s < s.device2.end_maintenance →
      simStep dur ω t s k = StepOut.running (nextEvent s)
        { s with device1 := ⟨s.device1.name, s.device1.shape, s.device1.scale,
            s.device2.end_maintenance + 1, nextEvent s + dur, false⟩ } (k + 1)) ∧
    (¬ nextEvent s = s.device1.next_maintenance →
      nextEvent s = s.device2.next_maintenance →
      nextEvent s < s.device1.end_maintenance →
      simStep dur ω t s k = StepOut.running (nextEvent s)
        { s with device2 := ⟨s.device2.name, s.device2.shape, s.device2.scale,
            s.device1.end_maintenance + 1, nextEvent s + dur, false⟩ } (k + 1)) := by
  constructor
  · intro h1 hdef
    rw [simStep_dev1 dur ω t s k hnt h1, if_pos hdef]
  · intro h1 h2 hdef
    rw [simStep_dev2 dur ω t s k hnt h1 h2, if_pos hdef]

/-- C1 witness: the amended deferral rule evaluated on `sDefer` (device 1
deferred behind device 2) and on its mirror `sDefer2` (device 2 deferred
behind device 1). -/
theorem claim_C1_witness :
    simStep 30 wOne 0 sDefer 0 = StepOut.running (nextEvent sDefer)
      { sDefer with device1 := ⟨sDefer.device1.name, sDefer.device1.shape,
          sDefer.device1.scale, sDefer.device2.end_maintenance + 1,
          nextEvent sDefer + 30, false⟩ } (0 + 1) ∧
    simStep 30 wOne 0 sDefer2 0 = StepOut.running (nextEvent sDefer2)
      { sDefer2 with device2 := ⟨sDefer2.device2.name, sDefer2.device2.shape,
          sDefer2.device2.scale, sDefer2.device1.end_maintenance + 1,
          nextEvent sDefer2 + 30, false⟩ } (0 + 1) :=
  ⟨(claim_C1_deferral 30 wOne 0 sDefer 0 (by with_unfolding_all decide)).1
      (by with_unfolding_all decide) (by with_unfolding_all decide),
   (claim_C1_deferral 30 wOne 0 sDefer2 0 (by with_unfolding_all decide)).2
      (by with_unfolding_all decide) (by with_unfolding_all decide)
      (by with_unfolding_all decide)⟩

/-- C3: after `Simulator.reset` and before any event, each device is
deterministically `failed = false`, `end_maintenance = 0`, and
`next_maintenance` equal to the value reset restores — the device's `scale`
parameter, which §4.4 of the specification identifies as the device's
configured initial `next_maintenance` value; and the result depends only on
the device configurations (name, shape, scale), not on the previous trial's
mutable fields. -/
theorem claim_C3_reset (ω : ℚ → ℕ → ℚ) (s s₂ : SimState) (k k₂ : ℕ)
    (h : sameDevCfg s s₂) :
    (resetS ω s k).1.device1 = ⟨s.device1.name, s.device1.shape, s.device1.scale,
      s.device1.scale, 0, false⟩ ∧
    (resetS ω s k).1.device2 = ⟨s.device2.name, s.device2.shape, s.device2.scale,
      s.device2.scale, 0, false⟩ ∧
    (resetS ω s k).1.device1 = (resetS ω s₂ k₂).1.device1 ∧
    (resetS ω s k).1.device2 = (resetS ω s₂ k₂).1.device2 := by
  refine ⟨resetDevice_val s.device1, resetDevice_val s.device2, ?_, ?_⟩
  · exact resetDevice_congr h.1 h.2.1 h.2.2.1
  · exact resetDevice_congr h.2.2.2.1 h.2.2.2.2.1 h.2.2.2.2.2

/-- C3 witness: reset from the pristine `sQuick` and from the dirty state
`sDirty` (different schedules, windows, failure flags, same configurations)
produces identical device states. -/
theorem claim_C3_witness :
    (resetS wOne sQuick 0).1.device1 = ⟨sQuick.device1.name, sQuick.device1.shape,
      sQuick.device1.scale, sQuick.device1.scale, 0, false⟩ ∧
    (resetS wOne sQuick 0).1.device1 = (resetS wOne sDirty 5).1.device1 ∧
    (resetS wOne sQuick 0).1.device2 = (resetS wOne sDirty 5).1.device2 := by
  have h := claim_C3_reset wOne sQuick sDirty 0 5 (by with_unfolding_all decide)
  exact ⟨h.1, h.2.2.1, h.2.2.2⟩

/-- C4 counterexample: in `sTie` at current time `40`, device 1's
maintenance time ties with the quake time at `50` while both devices are
mid-maintenance; the step *terminates* (the quake-triggered termination
check fires on the tie) instead of handling device 1's maintenance event. -/
theorem claim_C4_counterexample :
    nextEvent sTie = sTie.device1.next_maintenance ∧
      nextEvent sTie = sTie.quake ∧
      simStep 30 wOne 40 sTie 0 = StepOut.terminated 40 := by
  with_unfolding_all decide

/-- C4 (amended): the termination check runs before the dispatch and fires
whenever the minimum equals the quake time — also when that minimum
simultaneously equals a device's `next_maintenance` — provided both devices
are mid-maintenance.  When the termination check does not fire, the
`if`/`elif`/`else` dispatch gives device 1 priority over device 2 and both
devices priority over the quake branch (the quake branch is the fallback). -/
theorem claim_C4_tie_priority (dur : ℚ) (ω : ℚ → ℕ → ℚ) (t : ℚ) (s : SimState) (k : ℕ) :
    (nextEvent s = s.quake → t < s.device1.end_maintenance →
      t < s.device2.end_maintenance → simStep dur ω t s k = StepOut.terminated t) ∧
    (¬ (nextEvent s = s.quake ∧ t < s.device1.end_maintenance ∧
        t < s.device2.end_maintenance) →
      (nextEvent s = s.device1.next_maintenance →
        simStep dur ω t s k = StepOut.running (nextEvent s)
          { s with device1 :=
            (if nextEvent s < s.device2.end_maintenance then
              { s.device1 with
                next_maintenance := s.device2.end_maintenance + 1,
                end_maintenance := nextEvent s + dur,
                failed := false }
            else
              { s.device1 with
                next_maintenance :=
                  s.device1.next_maintenance + ω s.device1.shape k * s.device1.scale,
                end_maintenance := nextEvent s + dur,
                failed := false }) } (k + 1)) ∧
      (¬ nextEvent s = s.device1.next_maintenance →
        nextEvent s = s.device2.next_maintenance →
        simStep dur ω t s k = StepOut.running (nextEvent s)
          { s with device2 :=
            (if nextEvent s < s.device1.end_maintenance then
              { s.device2 with
                next_maintenance := s.device1.end_maintenance + 1,
                end_maintenance := nextEvent s + dur,
                failed := false }
            else
              { s.device2 with
                next_maintenance :=
                  s.device2.next_maintenance + ω s.device2.shape k * s.device2.scale,
                end_maintenance := nextEvent s + dur,
                failed := false }) } (k + 1)) ∧
      (¬ nextEvent s = s.device1.next_maintenance →
        ¬ nextEvent s = s.device2.next_maintenance →
        simStep dur ω t s k = StepOut.running (nextEvent s)
          { device1 :=
              (if s.device1.end_maintenance ≤ nextEvent s then
                { s.device1 with failed := true, next_maintenance := nextEvent s + dur }
              else s.device1),
            device2 :=
              (if s.device2.end_maintenance ≤ nextEvent s then
                { s.device2 with failed := true, next_maintenance := nextEvent s + dur }
              else s.device2),
            quake := nextEvent s + ω 3 k * 100 } (k + 1))) :=
  ⟨fun hq h1 h2 => simStep_term dur ω t s k hq h1 h2,
   fun hnt =>
    ⟨fun h1 => simStep_dev1 dur ω t s k hnt h1,
     fun h1 h2 => simStep_dev2 dur ω t s k hnt h1 h2,
     fun h1 h2 => simStep_quake dur ω t s k hnt h1 h2⟩⟩

/-- C4 witness: the termination-check conjunct evaluated on the tie state
`sTie`, and the device-1-priority conjunct evaluated on `sTieRun`, where
device 1 ties with the quake but the termination check cannot fire. -/
theorem claim_C4_witness :
    simStep 30 wOne 40 sTie 0 = StepOut.terminated 40 ∧
    simStep 30 wOne 40 sTieRun 0 = StepOut.running (nextEvent sTieRun)
      { sTieRun with device1 :=
        (if nextEvent sTieRun < sTieRun.device2.end_maintenance then
          { sTieRun.device1 with
            next_maintenance := sTieRun.device2.end_maintenance + 1,
            end_maintenance := nextEvent sTieRun + 30,
            failed := false }
        else
          { sTieRun.device1 with
            next_maintenance :=
              sTieRun.device1.next_maintenance + wOne sTieRun.device1.shape 0 * sTieRun.device1.scale,
            end_maintenance := nextEvent sTieRun + 30,
            failed := false }) } (0 + 1) :=
  ⟨(claim_C4_tie_priority 30 wOne 40 sTie 0).1 (by with_unfolding_all decide)
      (by with_unfolding_all decide) (by with_unfolding_all decide),
   ((claim_C4_tie_priority 30 wOne 40 sTieRun 0).2 (by with_unfolding_all decide)).1
      (by with_unfolding_all decide)⟩

/-- C6: when the seismic branch handles the event at time `t = quake`
(the minimum equals neither device's `next_maintenance`, and the
termination check does not fire), each device whose `end_maintenance ≤ t`
becomes `failed = true` with `next_maintenance = t + duration` and unchanged
`end_maintenance`, each device with `end_maintenance > t` is left entirely
unchanged, and the quake time is resampled to `t` plus the draw of the fixed
recurrence law (shape `3`, scale `100`). -/
theorem claim_C6_quake_handler (dur : ℚ) (ω : ℚ → ℕ → ℚ) (t : ℚ) (s : SimState) (k : ℕ)
    (hd1 : ¬ nextEvent s = s.device1.next_maintenance)
    (hd2 : ¬ nextEvent s = s.device2.next_maintenance)
    (hnb : ¬ (t < s.device1.end_maintenance ∧ t < s.device2.end_maintenance)) :
    simStep dur ω t s k = StepOut.running s.quake
      { device1 :=
          (if s.device1.end_maintenance ≤ s.quake then
            ⟨s.device1.name, s.device1.shape, s.device1.scale, s.quake + dur,
              s.device1.end_maintenance, true⟩
          else s.device1),
        device2 :=
          (if s.device2.end_maintenance ≤ s.quake then
            ⟨s.device2.name, s.device2.shape, s.device2.scale, s.quake + dur,
              s.device2.end_maintenance, true⟩
          else s.device2),
        quake := s.quake + ω 3 k * 100 } (k + 1) := by
  have hq : nextEvent s = s.quake := ((nextEvent_cases s).resolve_left hd1).resolve_left hd2
  have hnt : ¬ (nextEvent s = s.quake ∧ t < s.device1.end_maintenance ∧
      t < s.device2.end_maintenance) := fun hc => hnb ⟨hc.2.1, hc.2.2⟩
  rw [simStep_quake dur ω t s k hnt hd1 hd2, hq]

/-- C6 witness: the quake handler evaluated on `sQuakeW`, where device 1 is
outside its window (it fails and is rescheduled) and device 2 is inside its
window (it is untouched). -/
theorem claim_C6_witness :
    simStep 30 wOne 1 sQuakeW 0 = StepOut.running sQuakeW.quake
      { device1 :=
          (if sQuakeW.device1.end_maintenance ≤ sQuakeW.quake then
            ⟨sQuakeW.device1.name, sQuakeW.device1.shape, sQuakeW.device1.scale,
              sQuakeW.quake + 30, sQuakeW.device1.end_maintenance, true⟩
          else sQuakeW.device1),
        device2 :=
          (if sQuakeW.device2.end_maintenance ≤ sQuakeW.quake then
            ⟨sQuakeW.device2.name, sQuakeW.device2.shape, sQuakeW.device2.scale,
              sQuakeW.quake + 30, sQuakeW.device2.end_maintenance, true⟩
          else sQuakeW.device2),
        quake := sQuakeW.quake + wOne 3 0 * 100 } (0 + 1) :=
  claim_C6_quake_handler 30 wOne 1 sQuakeW 0 (by with_unfolding_all decide)
    (by with_unfolding_all decide) (by with_unfolding_all decide)

/-- C5 counterexample: `sLoop` is a valid configuration (all shapes, scales
and the maintenance duration `30` positive), yet under the all-zero draw
stream (numpy's `weibull` can return exactly `0.0`) the `while True` loop
never exits: no fuel bound ever yields a result, so the code loops unbounded
with no iteration safety cap and no non-termination sentinel. -/
theorem claim_C5_counterexample :
    0 < sLoop.device1.shape ∧ 0 < sLoop.device1.scale ∧ 0 < sLoop.device2.shape ∧
      0 < sLoop.device2.scale ∧ 0 < (30 : ℚ) ∧
      ¬ ∃ r, ∃ n, simulate 30 wZero n sLoop 0 = some r := by
  refine ⟨by with_unfolding_all decide, by with_unfolding_all decide,
    by with_unfolding_all decide, by with_unfolding_all decide,
    by with_unfolding_all decide, ?_⟩
  rintro ⟨r, n, hr⟩
  rw [sLoop_never n] at hr
  exact Option.noConfusion hr

/-- C5 (amended): for nonnegative draws, duration, scales and a time-ordered
start state, a trial run with any fuel bound either yields no result within
that bound or returns a non-negative termination time; it never returns a
negative time.  The code itself has no iteration cap or sentinel, and can
loop unboundedly (see the counterexample). -/
theorem claim_C5_trial_nonneg (dur : ℚ) (ω : ℚ → ℕ → ℚ) (fuel : ℕ) (s : SimState) (k : ℕ)
    (hω : ∀ a j, 0 ≤ ω a j) (hdur : 0 ≤ dur)
    (hc1 : 0 ≤ s.device1.scale) (hc2 : 0 ≤ s.device2.scale) (hInv : timeInv 0 s) :
    simulate dur ω fuel s k = none ∨
      ∃ r s' k', simulate dur ω fuel s k = some (r, s', k') ∧ 0 ≤ r := by
  cases h : simulate dur ω fuel s k with
  | none => exact Or.inl rfl
  | some v =>
    obtain ⟨r, s', k'⟩ := v
    exact Or.inr ⟨r, s', k', rfl, simulateAux_mono hω hdur fuel hc1 hc2 hInv h⟩

/-- C5 witness: the amended statement evaluated on `sQuick` with one unit of
fuel, where the trial terminates at time `0 ≥ 0`. -/
theorem claim_C5_witness :
    simulate 30 wOne 1 sQuick 0 = none ∨
      ∃ r s' k', simulate 30 wOne 1 sQuick 0 = some (r, s', k') ∧ 0 ≤ r :=
  claim_C5_trial_nonneg 30 wOne 1 sQuick 0 (fun _ _ => zero_le_one)
    (by with_unfolding_all decide) (by with_unfolding_all decide)
    (by with_unfolding_all decide) (by with_unfolding_all decide)

/-- C7: for nonnegative draws and duration, and any state satisfying the
time-ordering invariant with nonnegative scales: every running step moves
the current time forward (new time `≥` old) and preserves the invariant;
the value returned by the loop from any intermediate state is `≥` that
state's current time; a terminating step returns the current time itself;
and a trial started at time zero returns a non-negative result. -/
theorem claim_C7_time_monotone (dur : ℚ) (ω : ℚ → ℕ → ℚ)
    (hω : ∀ a j, 0 ≤ ω a j) (hdur : 0 ≤ dur) :
    (∀ t s k t' s' k', 0 ≤ s.device1.scale → 0 ≤ s.device2.scale → timeInv t s →
      simStep dur ω t s k = StepOut.running t' s' k' → t ≤ t' ∧ timeInv t' s') ∧
    (∀ t s k r, simStep dur ω t s k = StepOut.terminated r → r = t) ∧
    (∀ n t s k r s' k', 0 ≤ s.device1.scale → 0 ≤ s.device2.scale → timeInv t s →
      simulateAux dur ω n t s k = some (r, s', k') → t ≤ r) ∧
    (∀ fuel s k r s' k', 0 ≤ s.device1.scale → 0 ≤ s.device2.scale → timeInv 0 s →
      simulate dur ω fuel s k = some (r, s', k') → 0 ≤ r) :=
  ⟨fun _ _ _ _ _ _ hc1 hc2 hInv h => simStep_mono hω hdur hc1 hc2 hInv h,
   fun _ _ _ _ h => simStep_terminated_eq h,
   fun n _ _ _ _ _ _ hc1 hc2 hInv h => simulateAux_mono hω hdur n hc1 hc2 hInv h,
   fun fuel _ _ _ _ _ hc1 hc2 hInv h => simulateAux_mono hω hdur fuel hc1 hc2 hInv h⟩

/-- C7 witness: the step conjunct evaluated on `sDefer` (time moves from `0`
to `10` and the invariant is preserved) and the zero-start conjunct on
`sQuick` (result `0 ≥ 0`). -/
theorem claim_C7_witness :
    ((0 : ℚ) ≤ 10 ∧ timeInv 10 sDeferAfter) ∧ (0 : ℚ) ≤ 0 := by
  have h := claim_C7_time_monotone 30 wOne (fun _ _ => zero_le_one)
    (by with_unfolding_all decide)
  refine ⟨h.1 0 sDefer 0 10 sDeferAfter 1 (by with_unfolding_all decide)
    (by with_unfolding_all decide) (by with_unfolding_all decide)
    (by with_unfolding_all decide), ?_⟩
  exact h.2.2.2 1 sQuick 0 0 sQuick 0 (by with_unfolding_all decide)
    (by with_unfolding_all decide) (by with_unfolding_all decide)
    (by with_unfolding_all decide)

/-- C8: whenever the Monte-Carlo driver completes a schedule, it produces
exactly one batch per scheduled count in order, each batch's sample has
exactly that count's many termination times, the recorded averages are the
`np.mean`s of the samples in order, and the plotted convergence points pair
the `1/N` x-values with those averages, one point per count; for the
schedule `[1000, 2000, 4000]` (strictly increasing) the x-values are
`[1/1000, 1/2000, 1/4000]` in order. -/
theorem claim_C8_convergence_trace (dur : ℚ) (ω : ℚ → ℕ → ℚ) (fuel : ℕ)
    (sch : List ℕ) (s : SimState) (k : ℕ) (samples : List (List ℚ)) (avgs : List ℚ)
    (starts : List SimState) (s' : SimState) (k' : ℕ)
    (h : runSchedule dur ω fuel sch s k = some (samples, avgs, starts, s', k')) :
    samples.map List.length = sch ∧
    avgs = samples.map npMean ∧
    (convergencePoints sch avgs).map Prod.fst = convergenceX sch ∧
    (convergencePoints sch avgs).map Prod.snd = avgs ∧
    (convergencePoints sch avgs).length = sch.length ∧
    convergenceX [1000, 2000, 4000] = [1/1000, 1/2000, 1/4000] ∧
    (1000 : ℕ) < 2000 ∧ (2000 : ℕ) < 4000 := by
  obtain ⟨h1, h2⟩ := runSchedule_shape sch h
  have hlen : avgs.length = sch.length := by
    rw [h2, List.length_map, ← h1, List.length_map]
  have hxlen : (convergenceX sch).length = sch.length := by
    unfold convergenceX
    rw [List.length_map]
  refine ⟨h1, h2, ?_, ?_, ?_, by norm_num [convergenceX], by decide, by decide⟩
  · unfold convergencePoints
    exact List.map_fst_zip _ _ (le_of_eq (hxlen.trans hlen.symm))
  · unfold convergencePoints
    exact List.map_snd_zip _ _ (le_of_eq (hlen.trans hxlen.symm))
  · unfold convergencePoints
    rw [List.length_zip, hxlen, hlen, min_self]

/-- C8 witness: a one-count schedule `[1]` run from `sQuick`: one batch, one
sample of length 1, average equal to the sample mean. -/
theorem claim_C8_witness :
    ([[(0 : ℚ)]].map List.length = [1] ∧ [(0 : ℚ)] = [[(0 : ℚ)]].map npMean) := by
  have h := claim_C8_convergence_trace 30 wOne 30 [1] sQuick 0 [[0]] [0] [sQuick]
    sQuickReset 1 (by with_unfolding_all decide)
  exact ⟨h.1, h.2.1⟩

/-- C9: the `failed` flags are write-only in `Simulator.simulate`: two
states that agree except possibly on the devices' `failed` flags produce,
under the same draw stream, step-by-step identical event selections, times
and stream positions (states staying equal up to `failed`), and whole-trial
outcomes that are identical after forgetting the final `failed` flags — in
particular the same termination time and the same draw consumption. -/
theorem claim_C9_failed_write_only (dur : ℚ) (ω : ℚ → ℕ → ℚ) (s₁ s₂ : SimState)
    (h : stripFailed s₁ = stripFailed s₂) :
    (∀ t k, stepObs (simStep dur ω t s₁ k) = stepObs (simStep dur ω t s₂ k)) ∧
    (∀ n t k, (simulateAux dur ω n t s₁ k).map trialObs =
      (simulateAux dur ω n t s₂ k).map trialObs) ∧
    (∀ fuel k, (simulate dur ω fuel s₁ k).map trialObs =
      (simulate dur ω fuel s₂ k).map trialObs) :=
  ⟨fun t k => simStep_stripFailed dur ω t k h,
   fun n _ _ => simulateAux_stripFailed n h,
   fun fuel _ => simulateAux_stripFailed fuel h⟩

/-- C9 witness: `sQuickF` differs from `sQuick` only in device 1's `failed`
flag, and a trial from either state has the same observable outcome. -/
theorem claim_C9_witness :
    (simulate 30 wOne 1 sQuickF 0).map trialObs =
      (simulate 30 wOne 1 sQuick 0).map trialObs :=
  (claim_C9_failed_write_only 30 wOne sQuickF sQuick
    (by with_unfolding_all decide)).2.2 1 0

/-- C10: in the driver, reset happens after each trial, so over a schedule
of positive counts the very first trial of the whole run starts from the
given (constructed) state `s`, and every later trial — including the first
trial of every later batch — starts from a reset state: device
`next_maintenance` equal to that device's `scale`, `end_maintenance = 0`,
`failed = false`, quake freshly drawn from the initial-arrival law.  When
the constructed `next_maintenance` differs from the `scale`, the trials are
therefore not all identically initialized. -/
theorem claim_C10_reset_after_trial (dur : ℚ) (ω : ℚ → ℕ → ℚ) (fuel : ℕ)
    (n₀ : ℕ) (rest : List ℕ) (s : SimState) (k : ℕ) (samples : List (List ℚ))
    (avgs : List ℚ) (starts : List SimState) (s' : SimState) (k' : ℕ)
    (hpos : ∀ m ∈ (n₀ :: rest), 0 < m)
    (h : runSchedule dur ω fuel (n₀ :: rest) s k = some (samples, avgs, starts, s', k')) :
    (∃ tail, starts = s :: tail ∧ ∀ x ∈ tail, isResetLike ω s x) ∧
    (∀ x ∈ starts.tail,
      x.device1.next_maintenance = s.device1.scale ∧
      x.device2.next_maintenance = s.device2.scale ∧
      x.device1.end_maintenance = 0 ∧ x.device2.end_maintenance = 0 ∧
      x.device1.failed = false ∧ x.device2.failed = false) ∧
    (s.device1.next_maintenance ≠ s.device1.scale → ∀ x ∈ starts.tail, x ≠ s) := by
  obtain ⟨-, -, hne⟩ := runSchedule_starts (n₀ :: rest) hpos h
  obtain ⟨⟨tail, htail, hall⟩, -⟩ := hne (List.cons_ne_nil n₀ rest)
  have htl : starts.tail = tail := by rw [htail]; rfl
  refine ⟨⟨tail, htail, hall⟩, ?_, ?_⟩
  · intro x hx
    rw [htl] at hx
    obtain ⟨h1, h2, -⟩ := hall x hx
    rw [h1, h2, resetDevice_val, resetDevice_val]
    exact ⟨rfl, rfl, rfl, rfl, rfl, rfl⟩
  · intro hne0 x hx hxs
    rw [htl] at hx
    apply hne0
    have h1 := (hall x hx).1
    rw [hxs] at h1
    have h2 := congrArg Device.next_maintenance h1
    rw [resetDevice_val] at h2
    exact h2

/-- C10 witness: running the schedule `[1, 1]` from `sQuickB` (constructed
with `next_maintenance = 30 ≠ scale = 10` for device 1), the second trial
starts from the reset state `sQuickReset`, whose device-1 schedule equals
the scale parameter and which differs from the constructed start state. -/
theorem claim_C10_witness :
    sQuickReset.device1.next_maintenance = sQuickB.device1.scale ∧
      sQuickReset ≠ sQuickB := by
  have h := claim_C10_reset_after_trial 30 wOne 30 1 [1] sQuickB 0 [[0], [196]]
    [0, 196] [sQuickB, sQuickReset] sQuickReset 22
    (by with_unfolding_all decide) (by with_unfolding_all decide)
  have hm : sQuickReset ∈ ([sQuickB, sQuickReset] : List SimState).tail :=
    List.mem_cons_self _ _
  exact ⟨(h.2.1 sQuickReset hm).1,
    h.2.2 (by with_unfolding_all decide) sQuickReset hm⟩
